import Mathlib

/-!
Verification of `mlir/lib/Bindings/Python/PybindUtils.h`: the `Defaulting`
reference wrapper with its pybind11 type caster (`MlirDefaultingCaster`),
and the three string accumulators (`PyPrintAccumulator`, `PyFileAccumulator`,
`PySinglePartStringAccumulator`).

Modelling conventions:
* A byte chunk `(const char *part, intptr_t size)` is a `List Nat` of bytes.
* A Python `str` (`pybind11::str`) is its sequence of Unicode code points,
  `PyStr := List Nat`; constructing `pybind11::str(part, size)` performs a
  strict UTF-8 decode (`utf8Decode`) and raises on invalid input.
* Python-level exceptions and the fatal `assert` are made explicit with
  `Except` and sum-like result types.
* The GIL manipulation performed by `PyFileAccumulator`'s callback is made
  observable through an event trace.
-/

/-- A Unicode code-point string, the model of `pybind11::str`. -/
abbrev PyStr := List Nat

/-- A UTF-8 continuation byte, `0x80 ≤ b < 0xC0`. -/
abbrev isCont (b : Nat) : Prop := 0x80 ≤ b ∧ b < 0xC0

/-- Decode one code point from the front of a byte sequence (strict UTF-8):
returns the code point and the remaining bytes, or `none` on empty input or a
malformed sequence (lone continuation byte, truncated sequence, overlong form,
surrogate, or code point above `U+10FFFF`). -/
def utf8DecodeOne : List Nat → Option (Nat × List Nat)
  | [] => none
  | b0 :: rest =>
    if b0 < 0x80 then some (b0, rest)
    else if b0 < 0xC2 then none
    else if b0 < 0xE0 then
      match rest with
      | b1 :: r =>
        if isCont b1 then some ((b0 - 0xC0) * 0x40 + (b1 - 0x80), r) else none
      | [] => none
    else if b0 < 0xF0 then
      match rest with
      | b1 :: b2 :: r =>
        if isCont b1 ∧ isCont b2 ∧ (b0 = 0xE0 → 0xA0 ≤ b1) ∧ (b0 = 0xED → b1 < 0xA0) then
          some ((b0 - 0xE0) * 0x1000 + (b1 - 0x80) * 0x40 + (b2 - 0x80), r)
        else none
      | _ => none
    else if b0 < 0xF5 then
      match rest with
      | b1 :: b2 :: b3 :: r =>
        if isCont b1 ∧ isCont b2 ∧ isCont b3 ∧ (b0 = 0xF0 → 0x90 ≤ b1) ∧ (b0 = 0xF4 → b1 < 0x90) then
          some ((b0 - 0xF0) * 0x40000 + (b1 - 0x80) * 0x1000 + (b2 - 0x80) * 0x40 + (b3 - 0x80), r)
        else none
      | _ => none
    else none

/-- Fuelled decoding loop; the fuel only bounds the number of decoded code
points (each step consumes at least one byte, so `l.length` is always enough
fuel). -/
def utf8DecodeLoop : Nat → List Nat → Option (List Nat)
  | _, [] => some []
  | 0, _ :: _ => none
  | fuel + 1, b0 :: rest =>
    match utf8DecodeOne (b0 :: rest) with
    | none => none
    | some (c, r) => (utf8DecodeLoop fuel r).map fun s => c :: s

/-- Strict UTF-8 decoding of a byte sequence into code points, the model of
`PyUnicode_FromStringAndSize` as invoked by `pybind11::str(part, size)`:
`none` models a raised `UnicodeDecodeError`. -/
def utf8Decode (l : List Nat) : Option (List Nat) := utf8DecodeLoop l.length l

example : utf8Decode [72, 101] = some [72, 101] := by decide
example : utf8Decode [0xC3, 0xA9] = some [0xE9] := by decide
example : utf8Decode [0xC3] = none := by decide
example : utf8Decode [0xE2, 0x82, 0xAC] = some [0x20AC] := by decide
example : utf8Decode [0xED, 0xA0, 0x80] = none := by decide
example : utf8Decode [0xF0, 0x9F, 0x98, 0x80] = some [0x1F600] := by decide
example : utf8Decode [0xDE, 0xAD, 0xBE, 0xEF] = none := by decide

theorem utf8DecodeOne_length {l : List Nat} {c : Nat} {r : List Nat}
    (h : utf8DecodeOne l = some (c, r)) : r.length < l.length := by
  rw [utf8DecodeOne.eq_def] at h
  repeat' split at h
  all_goals simp_all
  all_goals omega

set_option maxRecDepth 4000 in
theorem utf8DecodeOne_append {a : List Nat} {c : Nat} {r m : List Nat}
    (h : utf8DecodeOne a = some (c, r)) :
    utf8DecodeOne (a ++ m) = some (c, r ++ m) := by
  rw [utf8DecodeOne.eq_def] at h
  repeat' split at h
  all_goals simp_all
  all_goals (rw [utf8DecodeOne.eq_def]; simp_all [List.cons_append])
  all_goals (repeat' split)
  all_goals (first | rfl | omega)

theorem utf8DecodeLoop_nil (f : Nat) : utf8DecodeLoop f [] = some [] := by
  cases f <;> rfl

theorem utf8DecodeLoop_fuel_irrel : ∀ (f1 f2 : Nat) (l : List Nat),
    l.length ≤ f1 → l.length ≤ f2 → utf8DecodeLoop f1 l = utf8DecodeLoop f2 l := by
  intro f1
  induction f1 with
  | zero =>
    intro f2 l h1 _
    have hl : l = [] := List.length_eq_zero.mp (Nat.le_zero.mp h1)
    subst hl
    rw [utf8DecodeLoop_nil, utf8DecodeLoop_nil]
  | succ g1 ih =>
    intro f2 l h1 h2
    cases l with
    | nil => rw [utf8DecodeLoop_nil, utf8DecodeLoop_nil]
    | cons b0 rest =>
      cases f2 with
      | zero => exact absurd h2 (by simp)
      | succ g2 =>
        simp only [utf8DecodeLoop]
        cases hd : utf8DecodeOne (b0 :: rest) with
        | none => rfl
        | some cr =>
          obtain ⟨c, r⟩ := cr
          have hlen := utf8DecodeOne_length hd
          simp only [List.length_cons] at h1 h2 hlen
          simp only [ih g2 r (by omega) (by omega)]

theorem utf8DecodeLoop_append : ∀ (fuel : Nat) (a sa : List Nat) {b sb : List Nat},
    utf8DecodeLoop fuel a = some sa → utf8Decode b = some sb →
    utf8Decode (a ++ b) = some (sa ++ sb) := by
  intro fuel
  induction fuel with
  | zero =>
    intro a sa b sb ha hb
    cases a with
    | nil =>
      rw [utf8DecodeLoop_nil] at ha
      cases ha
      simpa using hb
    | cons x xs => simp [utf8DecodeLoop] at ha
  | succ g ih =>
    intro a sa b sb ha hb
    cases a with
    | nil =>
      rw [utf8DecodeLoop_nil] at ha
      cases ha
      simpa using hb
    | cons b0 rest =>
      simp only [utf8DecodeLoop] at ha
      cases hd : utf8DecodeOne (b0 :: rest) with
      | none => rw [hd] at ha; simp at ha
      | some cr =>
        obtain ⟨c, r⟩ := cr
        rw [hd] at ha
        simp only [Option.map_eq_some'] at ha
        obtain ⟨s, hs, rfl⟩ := ha
        have hlen := utf8DecodeOne_length hd
        simp only [List.length_cons] at hlen
        have hr := ih r s hs hb
        have hd2 := utf8DecodeOne_append (m := b) hd
        simp only [List.cons_append] at hd2
        show utf8Decode ((b0 :: rest) ++ b) = some ((c :: s) ++ sb)
        unfold utf8Decode at hr ⊢
        simp only [List.cons_append, List.length_cons]
        simp only [utf8DecodeLoop]
        rw [hd2]
        simp only [utf8DecodeLoop_fuel_irrel ((rest ++ b).length) ((r ++ b).length) (r ++ b)
          (by simp; omega) le_rfl, hr]
        simp

theorem utf8Decode_append {a b sa sb : List Nat}
    (ha : utf8Decode a = some sa) (hb : utf8Decode b = some sb) :
    utf8Decode (a ++ b) = some (sa ++ sb) :=
  utf8DecodeLoop_append a.length a sa ha hb

theorem utf8Decode_nil : utf8Decode [] = some [] := rfl

/-- UTF-8 decoding distributes over concatenation of a list of chunks when
every chunk decodes successfully. -/
theorem utf8Decode_flatten : ∀ (chunks parts : List (List Nat)),
    chunks.mapM utf8Decode = some parts →
    utf8Decode chunks.flatten = some parts.flatten := by
  intro chunks
  induction chunks with
  | nil =>
    intro parts h
    simp only [List.mapM_nil] at h
    cases h
    exact utf8Decode_nil
  | cons c cs ih =>
    intro parts h
    rw [List.mapM_cons] at h
    cases hp : utf8Decode c with
    | none => rw [hp] at h; simp at h
    | some p =>
      cases hps : cs.mapM utf8Decode with
      | none => rw [hp, hps] at h; simp at h
      | some ps =>
        rw [hp, hps] at h
        simp at h
        subst h
        simp only [List.flatten_cons]
        exact utf8Decode_append hp (ih ps hps)

/-- Model of `PyPrintAccumulator`: a `pybind11::list` of decoded string
parts. -/
structure PyPrintAccumulator where
  parts : List PyStr
  deriving DecidableEq

/-- A freshly constructed `PyPrintAccumulator`: the `parts` list is empty. -/
def PyPrintAccumulator.init : PyPrintAccumulator := ⟨[]⟩

/-- One invocation of the callback returned by
`PyPrintAccumulator::getCallback`: `pybind11::str pyPart(part, size)` decodes
the chunk as UTF-8 (`none` models the raised decode error) and
`parts.append(std::move(pyPart))` appends it at the end. -/
def PyPrintAccumulator.callback (printAccum : PyPrintAccumulator)
    (chunk : List Nat) : Option PyPrintAccumulator :=
  (utf8Decode chunk).map fun pyPart => ⟨printAccum.parts ++ [pyPart]⟩

/-- Deliver a sequence of chunks to the callback, stopping if an invocation
raises. -/
def PyPrintAccumulator.run (printAccum : PyPrintAccumulator) :
    List (List Nat) → Option PyPrintAccumulator
  | [] => some printAccum
  | c :: cs =>
    match printAccum.callback c with
    | none => none
    | some printAccum2 => printAccum2.run cs

/-- Model of `PyPrintAccumulator::join`: builds `delim` as the empty string
and evaluates `delim.attr("join")(parts)`, Python string join with the empty
separator, i.e. concatenation of the parts in order. `join` only reads
`parts`, so the accumulator state it returns alongside the result is
unchanged. -/
def PyPrintAccumulator.join (printAccum : PyPrintAccumulator) :
    PyStr × PyPrintAccumulator :=
  (printAccum.parts.flatten, printAccum)

theorem PyPrintAccumulator.run_parts : ∀ (chunks : List (List Nat))
    (acc acc2 : PyPrintAccumulator), acc.run chunks = some acc2 →
    ∃ parts, chunks.mapM utf8Decode = some parts ∧
      acc2.parts = acc.parts ++ parts ∧ parts.length = chunks.length := by
  intro chunks
  induction chunks with
  | nil =>
    intro acc acc2 h
    cases h
    exact ⟨[], rfl, by simp, rfl⟩
  | cons c cs ih =>
    intro acc acc2 h
    rw [PyPrintAccumulator.run] at h
    cases hc : acc.callback c with
    | none => rw [hc] at h; exact Option.noConfusion h
    | some acc1 =>
      rw [hc] at h
      obtain ⟨ps, hps, hparts, hlen⟩ := ih acc1 acc2 h
      unfold PyPrintAccumulator.callback at hc
      obtain ⟨p, hp, hacc1⟩ := Option.map_eq_some'.mp hc
      refine ⟨p :: ps, ?_, ?_, by simpa using hlen⟩
      · rw [List.mapM_cons, hp, hps]; rfl
      · rw [hparts, ← hacc1]; simp

/-- C1: for every sequence of chunks (including the empty sequence) delivered
to `PyPrintAccumulator`'s callback without a decode error, the result of
finalization (`join`) equals the byte-for-byte concatenation of the chunks in
arrival order decoded as UTF-8; moreover one part is stored per chunk (a
zero-length chunk contributes an empty part, and no part is dropped or
reordered). -/
theorem joining_accumulator_concat (chunks : List (List Nat))
    (acc : PyPrintAccumulator)
    (h : PyPrintAccumulator.init.run chunks = some acc) :
    utf8Decode chunks.flatten = some (acc.join).1 ∧
    acc.parts.length = chunks.length := by
  obtain ⟨parts, hm, hparts, hlen⟩ := PyPrintAccumulator.run_parts chunks _ _ h
  refine ⟨?_, ?_⟩
  · rw [utf8Decode_flatten chunks parts hm]
    simp [PyPrintAccumulator.join, hparts, PyPrintAccumulator.init]
  · rw [hparts]
    simp [PyPrintAccumulator.init, hlen]

/-- Witness for C1 at the chunk sequence "He", "llo", "" (the end-to-end
scenario of the spec, with a zero-length chunk added). -/
theorem joining_accumulator_concat_witness :
    utf8Decode ([[72, 101], [108, 108, 111], []] : List (List Nat)).flatten =
      some ((PyPrintAccumulator.mk [[72, 101], [108, 108, 111], []]).join).1 ∧
    (PyPrintAccumulator.mk [[72, 101], [108, 108, 111], []]).parts.length =
      ([[72, 101], [108, 108, 111], []] : List (List Nat)).length :=
  joining_accumulator_concat [[72, 101], [108, 108, 111], []]
    (PyPrintAccumulator.mk [[72, 101], [108, 108, 111], []]) (by decide)

/-- C8: calling `join` twice in succession, with no intervening callback
invocations, yields the same result string both times and leaves the
accumulated parts intact: `join` neither consumes nor corrupts the stored
parts. -/
theorem joining_accumulator_join_preserves_state (acc : PyPrintAccumulator) :
    (acc.join).2 = acc ∧
    (((acc.join).2).join).1 = (acc.join).1 ∧
    ((acc.join).2).parts = acc.parts :=
  ⟨rfl, rfl, rfl⟩

/-- Events observable during one invocation of `PyFileAccumulator`'s callback:
GIL acquisition and release, a call of the file object's `write` method with
its argument, or a raised Python error. -/
inductive FileEvent
  | gilAcquire
  | gilRelease
  | writeBytes (content : List Nat)
  | writeText (content : PyStr)
  | raiseError
  deriving DecidableEq

/-- Model of `PyFileAccumulator`: it stores the bound `write` method of the
file object (observed here through the event trace) and the `binary` flag
fixed at construction. -/
structure PyFileAccumulator where
  binary : Bool
  deriving DecidableEq

/-- One invocation of the callback returned by
`PyFileAccumulator::getCallback`, as an event trace. The statement
`pybind11::gil_scoped_acquire();` constructs an unnamed temporary guard that
is destroyed at the end of that same statement, so the GIL is acquired and
immediately released again before the chunk is converted and written: the
trace starts with `gilAcquire, gilRelease`. Afterwards, binary mode builds
`pybind11::bytes(part, size)` (an exact copy of the chunk bytes) and calls
`write` with it; text mode builds `pybind11::str(part, size)` (strict UTF-8
decode, raising on invalid data) and calls `write` with it. -/
def PyFileAccumulator.callback (accum : PyFileAccumulator) (chunk : List Nat) :
    List FileEvent :=
  [FileEvent.gilAcquire, FileEvent.gilRelease] ++
    (if accum.binary then [FileEvent.writeBytes chunk]
     else
       match utf8Decode chunk with
       | some pyStr => [FileEvent.writeText pyStr]
       | none => [FileEvent.raiseError])

/-- Deliver a sequence of chunks, concatenating the invocation traces; a
raised error aborts the remaining invocations. -/
def PyFileAccumulator.run (accum : PyFileAccumulator) :
    List (List Nat) → List FileEvent
  | [] => []
  | c :: cs =>
    let t := accum.callback c
    if FileEvent.raiseError ∈ t then t else t ++ accum.run cs

/-- The subsequence of `write` calls in a trace, in order. -/
def writeEvents (trace : List FileEvent) : List FileEvent :=
  trace.filter fun e =>
    match e with
    | FileEvent.writeBytes _ => true
    | FileEvent.writeText _ => true
    | _ => false

/-- Checks that every `write` call in the trace happens while the GIL is
held, starting from GIL depth `d`. -/
def writesUnderGil (d : Nat) : List FileEvent → Bool
  | [] => true
  | FileEvent.gilAcquire :: t => writesUnderGil (d + 1) t
  | FileEvent.gilRelease :: t => writesUnderGil (d - 1) t
  | FileEvent.writeBytes _ :: t => decide (0 < d) && writesUnderGil d t
  | FileEvent.writeText _ :: t => decide (0 < d) && writesUnderGil d t
  | FileEvent.raiseError :: t => writesUnderGil d t

theorem PyFileAccumulator.run_binary_writes : ∀ chunks : List (List Nat),
    writeEvents ((PyFileAccumulator.mk true).run chunks) =
      chunks.map FileEvent.writeBytes := by
  intro chunks
  induction chunks with
  | nil => rfl
  | cons c cs ih =>
    simp [PyFileAccumulator.run, PyFileAccumulator.callback, writeEvents,
      List.filter_append] at ih ⊢
    exact ih

theorem PyFileAccumulator.run_text_writes : ∀ (chunks texts : List (List Nat)),
    chunks.mapM utf8Decode = some texts →
    writeEvents ((PyFileAccumulator.mk false).run chunks) =
      texts.map FileEvent.writeText := by
  intro chunks
  induction chunks with
  | nil =>
    intro texts h
    simp only [List.mapM_nil] at h
    cases h
    rfl
  | cons c cs ih =>
    intro texts h
    rw [List.mapM_cons] at h
    cases hp : utf8Decode c with
    | none => rw [hp] at h; exact Option.noConfusion h
    | some p =>
      cases hps : cs.mapM utf8Decode with
      | none => rw [hp, hps] at h; exact Option.noConfusion h
      | some ps =>
        rw [hp, hps] at h
        cases h
        simp [PyFileAccumulator.run, PyFileAccumulator.callback, hp,
          writeEvents, List.filter_append] at ih ⊢
        exact ih ps hps

/-- C5: for every chunk delivered to `PyFileAccumulator`, the sink's `write`
is called exactly once per callback invocation and in invocation order: in
binary mode the write argument is a byte buffer equal to the chunk's bytes,
and in text mode it is the UTF-8 decoding of the chunk. -/
theorem file_accumulator_write_per_chunk (chunks texts : List (List Nat))
    (h : chunks.mapM utf8Decode = some texts) :
    writeEvents ((PyFileAccumulator.mk true).run chunks) =
      chunks.map FileEvent.writeBytes ∧
    writeEvents ((PyFileAccumulator.mk false).run chunks) =
      texts.map FileEvent.writeText :=
  ⟨PyFileAccumulator.run_binary_writes chunks,
   PyFileAccumulator.run_text_writes chunks texts h⟩

/-- Witness for C5 at the chunk sequence "He", "". -/
theorem file_accumulator_write_per_chunk_witness :
    writeEvents ((PyFileAccumulator.mk true).run [[72, 101], []]) =
      ([[72, 101], []] : List (List Nat)).map FileEvent.writeBytes ∧
    writeEvents ((PyFileAccumulator.mk false).run [[72, 101], []]) =
      ([[72, 101], []] : List (List Nat)).map FileEvent.writeText :=
  file_accumulator_write_per_chunk [[72, 101], []] [[72, 101], []] (by decide)

/-- C4 (code bug evidence): the source writes
`pybind11::gil_scoped_acquire();`, an unnamed temporary that is destroyed at
the end of that statement, so the GIL is released again before the chunk is
converted and before `write` is called. Evaluating the callback on the
4-byte binary chunk `DE AD BE EF` starting at GIL depth 0 shows the write
happens outside the acquire/release span, contradicting the claim that the
GIL is held for the duration of the conversion and the write. -/
theorem file_accumulator_write_not_under_gil :
    writesUnderGil 0
        ((PyFileAccumulator.mk true).callback [0xDE, 0xAD, 0xBE, 0xEF]) = false ∧
    (PyFileAccumulator.mk true).callback [0xDE, 0xAD, 0xBE, 0xEF] =
      [FileEvent.gilAcquire, FileEvent.gilRelease,
       FileEvent.writeBytes [0xDE, 0xAD, 0xBE, 0xEF]] := by decide

/-- A Python-level failure surfaced by an accumulator: the fatal `assert`
(protocol violation) or a raised `UnicodeDecodeError` from
`pybind11::str(part, size)`. -/
inductive PyFailure
  | assertionFailure
  | unicodeDecodeError
  deriving DecidableEq

/-- Model of `PySinglePartStringAccumulator`: the stored decoded string and
the `invoked` flag. -/
structure PySinglePartStringAccumulator where
  value : PyStr
  invoked : Bool
  deriving DecidableEq

/-- A freshly constructed `PySinglePartStringAccumulator`: `value` is the
empty string (default-constructed `pybind11::str`) and `invoked` is false. -/
def PySinglePartStringAccumulator.init : PySinglePartStringAccumulator :=
  ⟨[], false⟩

/-- One invocation of the callback returned by
`PySinglePartStringAccumulator::getCallback`: asserts that `invoked` is still
false (the fatal protocol-violation path otherwise), sets it to true, and
stores the chunk decoded as UTF-8 via `pybind11::str(part, size)`. -/
def PySinglePartStringAccumulator.callback
    (accum : PySinglePartStringAccumulator) (chunk : List Nat) :
    Except PyFailure PySinglePartStringAccumulator :=
  if accum.invoked then Except.error PyFailure.assertionFailure
  else
    match utf8Decode chunk with
    | none => Except.error PyFailure.unicodeDecodeError
    | some s => Except.ok ⟨s, true⟩

/-- Model of `PySinglePartStringAccumulator::takeValue`: asserts that the
callback was invoked (fatal protocol-violation path otherwise) and returns
the stored value. -/
def PySinglePartStringAccumulator.takeValue
    (accum : PySinglePartStringAccumulator) : Except PyFailure PyStr :=
  if accum.invoked then Except.ok accum.value
  else Except.error PyFailure.assertionFailure

/-- C2: invoking the callback exactly once and then calling `takeValue`
returns that chunk's UTF-8-decoded content; calling `takeValue` with zero
prior invocations, or invoking the callback a second time, each triggers the
fatal assertion (protocol-violation) path rather than returning a value. -/
theorem single_part_accumulator_protocol (chunk chunk2 : List Nat) (s : PyStr)
    (accum2 : PySinglePartStringAccumulator)
    (h : utf8Decode chunk = some s)
    (h2 : PySinglePartStringAccumulator.init.callback chunk = Except.ok accum2) :
    accum2.takeValue = Except.ok s ∧
    PySinglePartStringAccumulator.init.takeValue =
      Except.error PyFailure.assertionFailure ∧
    accum2.callback chunk2 = Except.error PyFailure.assertionFailure := by
  obtain ⟨v, inv⟩ := accum2
  simp only [PySinglePartStringAccumulator.callback,
    PySinglePartStringAccumulator.init, h, Bool.false_eq_true, if_false] at h2
  cases h2
  refine ⟨rfl, rfl, ?_⟩
  simp [PySinglePartStringAccumulator.callback]

/-- Witness for C2 at the chunk "hi" followed by an attempted second chunk. -/
theorem single_part_accumulator_protocol_witness :
    PySinglePartStringAccumulator.takeValue ⟨[104, 105], true⟩ =
      Except.ok [104, 105] ∧
    PySinglePartStringAccumulator.init.takeValue =
      Except.error PyFailure.assertionFailure ∧
    PySinglePartStringAccumulator.callback ⟨[104, 105], true⟩ [33] =
      Except.error PyFailure.assertionFailure :=
  single_part_accumulator_protocol [104, 105] [33] [104, 105]
    ⟨[104, 105], true⟩ (by decide) rfl

/-- C10: a single callback invocation with a zero-length chunk is accepted as
the one required invocation (it sets the `invoked` flag without asserting),
and the subsequent `takeValue` returns the empty string. -/
theorem single_part_accumulator_empty_chunk :
    PySinglePartStringAccumulator.init.callback [] = Except.ok ⟨[], true⟩ ∧
    PySinglePartStringAccumulator.takeValue ⟨[], true⟩ = Except.ok [] :=
  ⟨rfl, rfl⟩

/-- The address of a live referent object; the model of a `ReferrentTy *`
value. -/
abbrev Ptr := Nat

/-- Model of the CRTP wrapper `Defaulting`: a borrowed pointer to the
referent, which is `nullptr` (here `Option.none`) in the default-constructed
state required by the type-caster machinery. -/
structure Defaulting where
  referrent : Option Ptr
  deriving DecidableEq

/-- The default constructor `Defaulting() = default`: the `referrent` member
is initialized to `nullptr` by its member initializer. -/
def Defaulting.defaultCtor : Defaulting := ⟨Option.none⟩

/-- The converting constructor `Defaulting(ReferrentTy &referrent)`: binds
the wrapper to the address of the referent; it has no failure mode. -/
def Defaulting.ofReferrent (referrent : Ptr) : Defaulting := ⟨some referrent⟩

/-- `Defaulting::get`: returns the stored pointer. -/
def Defaulting.get (d : Defaulting) : Option Ptr := d.referrent

/-- `Defaulting::operator->`: returns the stored pointer. -/
def Defaulting.arrow (d : Defaulting) : Option Ptr := d.referrent

/-- An incoming Python handle as seen by `MlirDefaultingCaster::load`: the
`None` sentinel, an object castable to `ReferrentTy &` living at some
address, or an object of an unrelated type for which
`pybind11::cast<ReferrentTy &>` throws. -/
inductive PyHandle
  | none
  | referrent (addr : Ptr)
  | other
  deriving DecidableEq

/-- The outcome of `MlirDefaultingCaster::load`: `return true` with the
converted value stored, `return false` (the soft non-match), or an exception
propagating out of the conversion step. -/
inductive LoadResult
  | succeeded (value : Defaulting)
  | failed
  | raised (msg : String)
  deriving DecidableEq

/-- Model of `MlirDefaultingCaster::load`. The parameter `resolve` is the
outcome of the derived type's static resolver `DefaultingTy::resolve()`,
which either returns a reference or raises. On `None` the caster invokes the
resolver and deliberately lets any exception propagate; otherwise it casts
the handle to `ReferrentTy &` in one step and turns a thrown cast exception
into the soft `return false` so that signature matching can report a nice
error. -/
def MlirDefaultingCaster.load (resolve : Except String Ptr) (src : PyHandle) :
    LoadResult :=
  match src with
  | PyHandle.none =>
    match resolve with
    | Except.ok referrent =>
      LoadResult.succeeded (Defaulting.ofReferrent referrent)
    | Except.error e => LoadResult.raised e
  | PyHandle.referrent addr =>
    LoadResult.succeeded (Defaulting.ofReferrent addr)
  | PyHandle.other => LoadResult.failed

/-- C3: converting the absence sentinel `None` invokes the type's resolver;
when the resolver raises, that error propagates out of the conversion step as
a raised exception rather than being converted into the soft non-match, and
when the resolver succeeds the converted value is built from its result. -/
theorem defaulting_caster_none_resolver_error_propagates (e : String)
    (addr : Ptr) :
    MlirDefaultingCaster.load (Except.error e) PyHandle.none =
      LoadResult.raised e ∧
    MlirDefaultingCaster.load (Except.ok addr) PyHandle.none =
      LoadResult.succeeded (Defaulting.ofReferrent addr) :=
  ⟨rfl, rfl⟩

/-- C6: for an incoming value that is neither `None` nor interpretable as the
referent type, `load` reports the soft non-match (`return false`) whatever
the resolver would do, instead of raising. -/
theorem defaulting_caster_unrelated_type_soft_nonmatch
    (resolve : Except String Ptr) :
    MlirDefaultingCaster.load resolve PyHandle.other = LoadResult.failed :=
  rfl

/-- C7: conversion from an explicit live referent succeeds for every resolver
state, with no failure mode, and the wrapper's `get` returns the referent's
address; conversion from `None` with a succeeding resolver succeeds, and
`get` returns the resolver's result. -/
theorem defaulting_caster_explicit_referrent (resolve : Except String Ptr)
    (addr d : Ptr) :
    MlirDefaultingCaster.load resolve (PyHandle.referrent addr) =
      LoadResult.succeeded (Defaulting.ofReferrent addr) ∧
    (Defaulting.ofReferrent addr).get = some addr ∧
    MlirDefaultingCaster.load (Except.ok d) PyHandle.none =
      LoadResult.succeeded (Defaulting.ofReferrent d) ∧
    (Defaulting.ofReferrent d).get = some d :=
  ⟨rfl, rfl, rfl, rfl⟩

/-- C9: a default-constructed `Defaulting` has `get` and `operator->` both
returning the null pointer, and in every state the two accessors return the
same pointer as each other. -/
theorem defaulting_default_ctor_null :
    Defaulting.defaultCtor.get = Option.none ∧
    Defaulting.defaultCtor.arrow = Option.none ∧
    ∀ d : Defaulting, d.get = d.arrow :=
  ⟨rfl, rfl, fun _ => rfl⟩
